import Mathlib

/-
Shallow embedding of the block-mapping and offset-resolution core of
google/dfdewey:

  * dfdewey/utils/index_searcher.py   (IndexSearcher)
  * dfdewey/utils/image_processor.py  (FileEntryScanner, ImageProcessor)
  * dfdewey/datastore/postgresql.py   (PostgresqlDataStore)

Python integers are modelled as Nat (all quantities involved are
non-negative); `int(a / b)` on non-negative operands is Nat division.
External I/O (pytsk3, dfvfs, psycopg2) is abstracted by passing the data
those libraries would return as explicit arguments, and by modelling the
datastore as an explicit state value.
-/

namespace DFDewey

/-- A TSK attribute data run (`run` in the pytsk3 iteration): starting
block address `addr` and length `len` in blocks. -/
structure Run where
  addr : Nat
  len : Nat
deriving Repr, DecidableEq

/-- A file attribute (`attr` in the pytsk3 iteration): its list of data
runs, in iteration order. -/
structure Attr where
  runs : List Run
deriving Repr, DecidableEq

/-- The block addresses `run.addr + block` visited by the inner loop
`for block in range(run.len)` of `_get_ntfs_resident_inode`. -/
def runBlockAddrs (r : Run) : List Nat :=
  (List.range r.len).map (fun b => r.addr + b)

/-- All run-block addresses of an inode's attributes, in the order the
nested loops `for attr in inode: for run in attr: for block in
range(run.len)` visit them. -/
def attrBlockAddrs (attrs : List Attr) : List Nat :=
  attrs.flatMap (fun a => a.runs.flatMap runBlockAddrs)

/-- Decode one byte (taken mod 256) as a signed 8-bit integer, as
`int.from_bytes(..., 'little', signed=True)` does on a single byte. -/
def signedByte (b : Nat) : Int :=
  if b % 256 < 128 then ((b % 256 : Nat) : Int) else ((b % 256 : Nat) : Int) - 256

/-- The MFT record size decoding of `IndexSearcher._get_filenames_from_offset`
(index_searcher.py lines 158-164): the byte at offset 0x40 of the volume's
boot sector read as a signed byte; a negative value n means record size
2^|n|, a non-negative value means n * block_size. -/
def decodeMftRecordSize (b blockSize : Nat) : Nat :=
  let s := signedByte b
  if s < 0 then 2 ^ (-s).toNat else (s * blockSize).toNat

/-- The innermost loop of `IndexSearcher._get_ntfs_resident_inode` over the
block addresses of one (or several, when the list is a concatenation) data
runs.  `acc` is the running `mft_entry` accumulator; on a match the function
returns `some (acc + intra)` where `intra` models
`int((offset - offset_block * block_size) / mft_record_size)`, otherwise the
accumulator grows by `slots` = `int(block_size / mft_record_size)` per
visited run block. -/
def scanRunBlocks (offsetBlock slots intra : Nat) :
    List Nat → Nat → Option Nat × Nat
  | [], acc => (none, acc)
  | a :: rest, acc =>
    if a = offsetBlock then (some (acc + intra), acc)
    else scanRunBlocks offsetBlock slots intra rest (acc + slots)

/-- The `for run in attr` level of `_get_ntfs_resident_inode`. -/
def scanRuns (offsetBlock slots intra : Nat) :
    List Run → Nat → Option Nat × Nat
  | [], acc => (none, acc)
  | r :: rs, acc =>
    match scanRunBlocks offsetBlock slots intra (runBlockAddrs r) acc with
    | (some e, acc2) => (some e, acc2)
    | (none, acc2) => scanRuns offsetBlock slots intra rs acc2

/-- The `for attr in inode` level of `_get_ntfs_resident_inode`. -/
def scanAttrs (offsetBlock slots intra : Nat) :
    List Attr → Nat → Option Nat × Nat
  | [], acc => (none, acc)
  | a :: rest, acc =>
    match scanRuns offsetBlock slots intra a.runs acc with
    | (some e, acc2) => (some e, acc2)
    | (none, acc2) => scanAttrs offsetBlock slots intra rest acc2

/-- Model of `IndexSearcher._get_ntfs_resident_inode` (index_searcher.py lines
175-199).  `mftAttrs` are the attributes of `filesystem.open_meta(0)`, the
$MFT; `offset` is the data offset within the volume.  Returns the computed
MFT entry, or 0 when the offset's block is found in none of the runs (the
final `return 0`). -/
def getNtfsResidentInode (mftAttrs : List Attr)
    (offset blockSize mftRecordSize : Nat) : Nat :=
  let offsetBlock := offset / blockSize
  let slots := blockSize / mftRecordSize
  let intra := (offset - offsetBlock * blockSize) / mftRecordSize
  match (scanAttrs offsetBlock slots intra mftAttrs 0).1 with
  | some e => e
  | none => 0

/-- A row of the per-image `blocks` table: (block, inum, part).  Schema from
`PostgresqlDataStore.create_filesystem_database`:
`CREATE TABLE blocks (block INTEGER, inum INTEGER, part TEXT, PRIMARY KEY
(block, inum, part))` — the primary key is the full tuple. -/
abbrev BlockRow := Nat × Nat × String

/-- A row of the per-image `files` table: (inum, filename, part).  Primary
key `(inum, filename, part)` is again the full tuple. -/
abbrev FileRow := Nat × String × String

/-- Contents of one per-image filesystem database (tables `blocks` and
`files`). -/
structure FsDb where
  blocks : List BlockRow
  files : List FileRow
deriving Repr, DecidableEq

/-- Model of `PostgresqlDataStore.get_inodes` (postgresql.py lines 195-210):
`SELECT inum FROM blocks WHERE block = {block} AND part = '{location}'`. -/
def getInodes (db : FsDb) (block : Nat) (location : String) : List Nat :=
  (db.blocks.filter (fun r => r.1 == block && r.2.2 == location)).map
    (fun r => r.2.1)

/-- Model of `PostgresqlDataStore.get_filenames_from_inode` (postgresql.py lines
144-160): `SELECT filename FROM files WHERE inum = {inode} AND part =
'{location}'`. -/
def getFilenamesFromInode (db : FsDb) (inode : Nat) (location : String) :
    List String :=
  (db.files.filter (fun r => r.1 == inode && r.2.2 == location)).map
    (fun r => r.2.1)

/-- Byte extent of a volume as recorded by
`FileEntryScanner.get_volume_extents`: `start` and `stop` bound the volume;
`stop = start + size`.  The synthetic single-volume entry has `start = 0`
and `size = 0`, hence `stop = 0`, which the resolver loop tests as
`if not extent['end']`. -/
structure Extent where
  start : Nat
  stop : Nat
deriving Repr, DecidableEq

/-- Facts the resolver reads from pytsk3 for the filesystem opened at a
partition offset: `filesystem.info.block_size`, whether
`filesystem.info.ftype == pytsk3.TSK_FS_TYPE_NTFS_DETECT`, the boot-sector
byte `img.read(partition_offset + 0x40, 1)`, and the attributes of
`filesystem.open_meta(0)` (the $MFT). -/
structure FsFacts where
  blockSize : Nat
  isNtfs : Bool
  byte0x40 : Nat
  mftAttrs : List Attr

/-- The source image as the resolver sees it: the volume-extents map (in
Python dict iteration order) and, per partition offset, the filesystem
facts pytsk3 would report there. -/
structure ImageModel where
  extents : List (String × Extent)
  fs : Nat → FsFacts

/-- One iteration of the volume-matching loop of
`IndexSearcher._get_filenames_from_offset` (index_searcher.py lines
133-140): an entry with `stop = 0` (single-volume image) matches
unconditionally, a bounded entry matches when it contains the offset, and
otherwise the previous hit is kept. -/
def volumeStep (offset : Nat) (hit : Option (String × Nat))
    (le : String × Extent) : Option (String × Nat) :=
  if le.2.stop = 0 then some (le.1, le.2.start)
  else if le.2.start ≤ offset ∧ offset < le.2.stop then
    some (le.1, le.2.start)
  else hit

/-- The volume-matching loop of `_get_filenames_from_offset`: iterates all
extents without breaking, so the last matching entry wins. -/
def matchVolume (extents : List (String × Extent)) (offset : Nat) :
    Option (String × Nat) :=
  extents.foldl (volumeStep offset) none

/-- Result of one offset resolution: the returned filename strings plus a
log of the `get_inodes` block queries the resolution issued. -/
structure Resolution where
  filenames : List String
  blockQueries : List (Nat × String)
deriving Repr, DecidableEq

/-- The display string `'{0:s} ({1:d})'.format(filename, inode)` built at
index_searcher.py line 171, where `filename` is
`'\n'.join(inode_filenames)`. -/
def displayString (names : List String) (inode : Nat) : String :=
  String.intercalate "\n" names ++ " (" ++ toString inode ++ ")"

/-- Model of `IndexSearcher._get_filenames_from_offset` (index_searcher.py lines
102-173), abstracted over the image facts and the per-image database.  When
no volume extent matches, `partition_offset` stays `None` and the function
returns the empty list having issued no block query.  Otherwise it queries
`get_inodes(int((offset - partition_offset) / block_size), hit_location)`
and, for each returned inode — applying the NTFS resident-record
correction when the raw inode is 0 and the filesystem is NTFS — appends
the display string for the filenames of that inode.  The function is
total: every miss is an empty result, not an exception. -/
def getFilenamesFromOffset (img : ImageModel) (db : FsDb) (offset : Nat) :
    Resolution :=
  match matchVolume img.extents offset with
  | none => ⟨[], []⟩
  | some (loc, start) =>
    let facts := img.fs start
    let bs := facts.blockSize
    let block := (offset - start) / bs
    let inodes := getInodes db block loc
    let names := inodes.map (fun inode =>
      let resolved :=
        if inode == 0 && facts.isNtfs then
          getNtfsResidentInode facts.mftAttrs (offset - start) bs
            (decodeMftRecordSize facts.byte0x40 bs)
        else inode
      displayString (getFilenamesFromInode db resolved loc) resolved)
    ⟨names, [(block, loc)]⟩

/-- One conflict-ignoring insert of a single row: the row is discarded when
a row with the same primary key already exists.  For both per-image tables
the primary key is the full tuple, so the key test is row equality. -/
def insertIgnore {α : Type} [BEq α] (t : List α) (r : α) : List α :=
  if t.contains r then t else t ++ [r]

/-- Table contents after `PostgresqlDataStore.bulk_insert` (postgresql.py
lines 81-91): `INSERT INTO {table_spec} VALUES %s ON CONFLICT DO NOTHING`.
Rows conflicting with an existing primary key are silently discarded,
including conflicts with rows inserted earlier in the same batch. -/
def bulkInsertRows {α : Type} [BEq α] (t : List α) (rows : List α) : List α :=
  rows.foldl insertIgnore t

/-- The SQL statements `bulk_insert` issues for one batch:
`psycopg2.extras.execute_values` interpolates the whole VALUES list into
the single template `'INSERT INTO {0:s} VALUES %s ON CONFLICT DO
NOTHING'.format(table_spec)`, one statement for the batch, not one per
row.  `values` are the rendered row tuples. -/
def bulkInsertStatements (tableSpec : String) (values : List String) :
    List String :=
  ["INSERT INTO " ++ tableSpec ++ " VALUES " ++
    String.intercalate ", " values ++ " ON CONFLICT DO NOTHING"]

/-- Constant `BATCH_SIZE` (image_processor.py line 36). -/
def BATCH_SIZE : Nat := 1500

/-- One inode of the volume as `ImageProcessor._parse_inodes` sees it
through `filesystem.open_meta`: link count and attributes. -/
structure InodeMeta where
  nlink : Nat
  attrs : List Attr
deriving Repr, DecidableEq

/-- The rows the run/block loops of `_parse_inodes` (image_processor.py
lines 607-614) emit for one inode: one `(run.addr + block, inode,
location)` row per block of each run of each attribute, in iteration
order. -/
def inodeRows (location : String) (inum : Nat) (attrs : List Attr) :
    List BlockRow :=
  attrs.flatMap (fun a => a.runs.flatMap (fun r =>
    (List.range r.len).map (fun b => (r.addr + b, inum, location))))

/-- All rows `_parse_inodes` emits for a volume, in emission order: inode
numbers are visited in increasing filesystem inode order
(`range(first_inum, last_inum + 1)`); an entry `(i, none)` stands for an
inode whose `open_meta` raised (skipped by the `continue`), and inodes
with `nlink = 0` emit nothing. -/
def volumeRows (location : String)
    (inodes : List (Nat × Option InodeMeta)) : List BlockRow :=
  inodes.flatMap (fun p =>
    match p.2 with
    | none => []
    | some m => if 0 < m.nlink then inodeRows location p.1 m.attrs else [])

/-- Appending one emitted row to the pending batch, flushing to
`bulk_insert` when the batch reaches `BATCH_SIZE` — the `if len(rows) >=
BATCH_SIZE` check of image_processor.py lines 615-617, performed after
each append.  The first component is the list of batches flushed so far;
the second is the pending buffer. -/
def pushRow (st : List (List BlockRow) × List BlockRow) (r : BlockRow) :
    List (List BlockRow) × List BlockRow :=
  let buf := st.2 ++ [r]
  if BATCH_SIZE ≤ buf.length then (st.1 ++ [buf], []) else (st.1, buf)

/-- The sequence of batches `_parse_inodes` passes to
`bulk_insert('blocks (block, inum, part)', ...)` for one volume: full
batches flushed inside the loops plus the final partial flush
`if rows: bulk_insert(...)` (image_processor.py lines 618-619). -/
def parseInodesBatches (location : String)
    (inodes : List (Nat × Option InodeMeta)) : List (List BlockRow) :=
  let st := (volumeRows location inodes).foldl pushRow ([], [])
  if st.2.isEmpty then st.1 else st.1 ++ [st.2]

/-- A row of the `images` table: (image_id, image_path, image_hash). -/
abbrev ImageRow := String × String × String

/-- A row of the `image_case` join table: (case_id, image_id). -/
abbrev CaseLink := String × String

/-- The datastore state the tracking-ledger operations act on: whether the
`images`/`image_case` tables exist in the main database, their rows, the
per-image filesystem databases by name, and the OpenSearch index names. -/
structure Store where
  imagesTable : Bool
  images : List ImageRow
  imageCase : List CaseLink
  fsDbs : List (String × FsDb)
  indexes : List String
deriving Repr, DecidableEq

/-- Model of `PostgresqlDataStore.value_exists('images', 'image_id', value)` as
called by `_already_parsed`. -/
def valueExistsImages (s : Store) (imageId : String) : Bool :=
  s.images.any (fun r => r.1 == imageId)

/-- Model of `PostgresqlDataStore.is_image_in_case` (postgresql.py lines 236-253). -/
def isImageInCase (s : Store) (imageId caseId : String) : Bool :=
  s.imageCase.any (fun l => l.1 == caseId && l.2 == imageId)

/-- Whether the per-image filesystem database `name` physically exists. -/
def fsDbExists (s : Store) (name : String) : Bool :=
  s.fsDbs.any (fun d => d.1 == name)

/-- Model of `PostgresqlDataStore.get_image_cases` (postgresql.py lines 162-176). -/
def getImageCases (s : Store) (imageId : String) : List String :=
  (s.imageCase.filter (fun l => l.2 == imageId)).map (fun l => l.1)

/-- Model of `PostgresqlDataStore.unlink_image_from_case` (postgresql.py lines
304-315): `DELETE FROM image_case WHERE case_id = ... AND image_id = ...`. -/
def unlinkImageFromCase (s : Store) (imageId caseId : String) : Store :=
  { s with imageCase :=
      s.imageCase.filter (fun l => !(l.1 == caseId && l.2 == imageId)) }

/-- Model of `ImageProcessor._already_parsed` (image_processor.py lines 301-333):
creates the `images`/`image_case` tables on first use; computes
`image_exists` by querying the `images` table for the image id; inserts
the image row when missing; links the image to the case when the link is
missing.  Returns `image_exists` — the datastore row check, not a check
of the per-image filesystem database. -/
def alreadyParsed (s : Store) (caseId imageId imagePath imageHash : String) :
    Bool × Store :=
  let tablesExist := s.imagesTable
  let s1 := if tablesExist then s else { s with imagesTable := true }
  let imageExists := tablesExist && valueExistsImages s1 imageId
  let (imageCaseExists, s2) :=
    if imageExists then (isImageInCase s1 imageId caseId, s1)
    else (false,
      { s1 with images := s1.images ++ [(imageId, imagePath, imageHash)] })
  let s3 :=
    if imageCaseExists then s2
    else { s2 with imageCase := s2.imageCase ++ [(caseId, imageId)] }
  (imageExists, s3)

/-- Outcome of `ImageProcessor._delete_image_data`: the image was not in
the case (error logged, nothing changed); the image is still referenced by
other cases (reported, data kept); or the image data was deleted. -/
inductive DeleteOutcome where
  | notInCase : DeleteOutcome
  | stillReferenced : List String → DeleteOutcome
  | deleted : DeleteOutcome
deriving Repr, DecidableEq

/-- Model of `ImageProcessor._delete_image_data` (image_processor.py lines 353-399):
checks the case link, unlinks the image from the case, and only when no
other case still references the image deletes the OpenSearch index
`es<hash>` (when it exists), drops the database `fs<hash>`, and removes
the image row; otherwise it stops after the unlink and reports the
still-referencing cases. -/
def deleteImageData (s : Store) (caseId imageId imageHash : String) :
    Store × DeleteOutcome :=
  if !(isImageInCase s imageId caseId) then (s, DeleteOutcome.notInCase)
  else
    let s1 := unlinkImageFromCase s imageId caseId
    let cases := getImageCases s1 imageId
    if !cases.isEmpty then (s1, DeleteOutcome.stillReferenced cases)
    else
      let indexName := "es" ++ imageHash
      let s2 := { s1 with
        indexes := s1.indexes.filter (fun i => !(i == indexName)) }
      let dbName := "fs" ++ imageHash
      let s3 := { s2 with
        fsDbs := s2.fsDbs.filter (fun d => !(d.1 == dbName)) }
      let s4 := { s3 with
        images := s3.images.filter (fun r => !(r.1 == imageId)) }
      (s4, DeleteOutcome.deleted)

/-- What the scanners would produce for one volume of an image: its
location, whether its type indicator is EXT or NTFS (the supported types
at image_processor.py lines 578-579), the block rows `_parse_inodes`
would emit and the file rows `parse_file_entries` would emit. -/
structure VolumeContent where
  location : String
  supported : Bool
  blockRows : List BlockRow
  fileRows : List FileRow
deriving Repr, DecidableEq

/-- An image together with the volume contents its scan would yield. -/
structure ImageInput where
  imageId : String
  imagePath : String
  imageHash : String
  volumes : List VolumeContent
deriving Repr, DecidableEq

/-- The per-volume loop of `_parse_filesystems` acting on the per-image
database: supported volumes bulk-insert their block and file rows (through
the conflict-ignoring path), unsupported volumes are skipped with a
warning.  Returns the final database contents and the total number of rows
passed to `bulk_insert`. -/
def insertVolumes (vols : List VolumeContent) (db : FsDb) : FsDb × Nat :=
  vols.foldl
    (fun acc v =>
      if v.supported then
        (⟨bulkInsertRows acc.1.blocks v.blockRows,
          bulkInsertRows acc.1.files v.fileRows⟩,
         acc.2 + v.blockRows.length + v.fileRows.length)
      else acc)
    (db, 0)

/-- Model of `ImageProcessor._parse_filesystems` (image_processor.py lines 533-585),
abstracted over the volume contents: runs `_already_parsed`; when the image
is already parsed and `reparse` is set, drops the per-image database and
proceeds; when already parsed and `reparse` is not set, does nothing more;
otherwise creates the per-image database `fs<hash>` with empty `blocks` and
`files` tables and runs the per-volume inserts.  Returns the new state and
the number of rows passed to `bulk_insert` during the run. -/
def parseFilesystems (s : Store) (caseId : String) (img : ImageInput)
    (reparse : Bool) : Store × Nat :=
  let r0 := alreadyParsed s caseId img.imageId img.imagePath img.imageHash
  let dbName := "fs" ++ img.imageHash
  let r1 :=
    if r0.1 && reparse then
      (false, { r0.2 with
        fsDbs := r0.2.fsDbs.filter (fun d => !(d.1 == dbName)) })
    else r0
  if r1.1 then (r1.2, 0)
  else
    let r2 := insertVolumes img.volumes ⟨[], []⟩
    ({ r1.2 with fsDbs := r1.2.fsDbs ++ [(dbName, r2.1)] }, r2.2)

/-- Model of `FileEntryScanner._list_file_entry` (image_processor.py lines 144-185)
reduced to its traversal skeleton: the directory structure is the map from
a directory's inode to the inodes its `sub_file_entries` iteration yields.
The source keeps no record of visited inodes — it recurses into every sub
entry unconditionally — so the walk here carries only a recursion-depth
bound `fuel` standing for Python's recursion limit.  The result is the
preorder sequence of visited inodes, or `none` when the bound is hit
before the walk completes. -/
def listFileEntryWalk (children : Nat → List Nat) :
    Nat → Nat → Option (List Nat)
  | 0, _ => none
  | fuel + 1, node => do
    let subs ← (children node).mapM (listFileEntryWalk children fuel)
    pure (node :: subs.flatten)

/-- A two-directory cycle: directory 0 lists directory 1 as a sub entry
and directory 1 lists directory 0 — the shape a corrupted or adversarial
directory structure can present. -/
def cycleChildren : Nat → List Nat :=
  fun n => if n = 0 then [1] else if n = 1 then [0] else []

/-- An acyclic structure in which the same directory (inode 1) is reached
twice from the root — e.g. via duplicate or hard-linked directory
entries. -/
def revisitChildren : Nat → List Nat :=
  fun n => if n = 0 then [1, 1] else []

/-- The single-quote character. -/
def sqlQuote : Char := Char.ofNat 39

/-- A single-quote as a string. -/
def sq : String := String.singleton sqlQuote

/-- SQL text built by `PostgresqlDataStore.get_filenames_from_inode`
(postgresql.py lines 154-156): the location is interpolated verbatim
between single quotes by `str.format`, with no escaping. -/
def getFilenamesFromInodeSql (inode : Nat) (location : String) : String :=
  "SELECT filename FROM files WHERE inum = " ++ toString inode ++
    " AND part = " ++ sq ++ location ++ sq

/-- SQL text built by `PostgresqlDataStore.insert_image` (postgresql.py
lines 231-234): all three values interpolated verbatim, unescaped. -/
def insertImageSql (imageId imagePath imageHash : String) : String :=
  "INSERT INTO images (image_id, image_path, image_hash) VALUES (" ++
    sq ++ imageId ++ sq ++ ", " ++ sq ++ imagePath ++ sq ++ ", " ++
    sq ++ imageHash ++ sq ++ ")"

/-- SQL text built by `PostgresqlDataStore.value_exists` (postgresql.py
lines 328-331), newlines and indentation included: the value is
interpolated verbatim between single quotes, unescaped. -/
def valueExistsSql (tableName columnName value : String) : String :=
  "\n        SELECT 1 from " ++ tableName ++ "\n        WHERE " ++
    columnName ++ " = " ++ sq ++ value ++ sq

/-- Scanner for PostgreSQL single-quoted string literals: `inLit` tracks
whether the position is inside a literal; inside a literal a doubled
quote is an escaped quote character.  The scan of a statement is accepted
(`true`) exactly when it ends outside a literal, i.e. when every quote
character belongs to a well-formed literal. -/
def sqlScan : List Char → Bool → Bool
  | [], inLit => !inLit
  | c :: rest, false => sqlScan rest (c == sqlQuote)
  | [c], true => c == sqlQuote
  | c :: d :: rest2, true =>
    if c == sqlQuote then
      if d == sqlQuote then sqlScan rest2 true
      else sqlScan (d :: rest2) false
    else sqlScan (d :: rest2) true

/-- A statement's quote characters all form well-formed single-quoted
literals. -/
def wellFormedSqlText (stmt : String) : Bool :=
  sqlScan stmt.toList false

/-! ### Lemmas about the `_get_ntfs_resident_inode` scan -/

/-- Scanning a concatenated block list scans the first part and — when the
owning block is not found there — continues with the second part from the
updated accumulator. -/
lemma scanRunBlocks_append (ob s i : Nat) (l1 l2 : List Nat) (acc : Nat) :
    scanRunBlocks ob s i (l1 ++ l2) acc =
      match scanRunBlocks ob s i l1 acc with
      | (some e, a) => (some e, a)
      | (none, a) => scanRunBlocks ob s i l2 a := by
  induction l1 generalizing acc with
  | nil => simp [scanRunBlocks]
  | cons x xs ih =>
    simp only [List.cons_append, scanRunBlocks]
    by_cases hx : x = ob
    · simp [hx]
    · simp only [if_neg hx]
      exact ih (acc + s)

/-- The run level of the scan equals the flat scan of the concatenated
run-block addresses. -/
lemma scanRuns_eq_flat (ob s i : Nat) (rs : List Run) (acc : Nat) :
    scanRuns ob s i rs acc =
      scanRunBlocks ob s i (rs.flatMap runBlockAddrs) acc := by
  induction rs generalizing acc with
  | nil => simp [scanRuns, scanRunBlocks]
  | cons r rest ih =>
    simp only [scanRuns, List.flatMap_cons, scanRunBlocks_append]
    cases h : scanRunBlocks ob s i (runBlockAddrs r) acc with
    | mk o a =>
      cases o with
      | none => simp [ih]
      | some e => simp

/-- The attribute level of the scan equals the flat scan of all run-block
addresses. -/
lemma scanAttrs_eq_flat (ob s i : Nat) (attrs : List Attr) (acc : Nat) :
    scanAttrs ob s i attrs acc =
      scanRunBlocks ob s i (attrBlockAddrs attrs) acc := by
  induction attrs generalizing acc with
  | nil => simp [scanAttrs, attrBlockAddrs, scanRunBlocks]
  | cons a rest ih =>
    simp only [scanAttrs, attrBlockAddrs, List.flatMap_cons,
      scanRunBlocks_append, scanRuns_eq_flat]
    cases h : scanRunBlocks ob s i (a.runs.flatMap runBlockAddrs) acc with
    | mk o acc2 =>
      cases o with
      | none => simpa [attrBlockAddrs] using ih acc2
      | some e => simp

/-- When the owning block is in none of the scanned addresses, the scan
reports no match and accumulates `slots` per scanned block. -/
lemma scanRunBlocks_not_mem (ob s i : Nat) (l : List Nat) (acc : Nat)
    (h : ob ∉ l) :
    scanRunBlocks ob s i l acc = (none, acc + s * l.length) := by
  induction l generalizing acc with
  | nil => simp [scanRunBlocks]
  | cons x xs ih =>
    simp only [List.mem_cons, not_or] at h
    simp only [scanRunBlocks, List.length_cons]
    rw [if_neg (fun hx => h.1 (hx.symm)), ih (acc + s) h.2]
    have harith : acc + s + s * xs.length = acc + s * (xs.length + 1) := by ring
    rw [harith]

/-- When the owning block first occurs after `xs.length` run blocks, the
scan returns the accumulator grown by `slots` per prior block, plus the
intra-block term. -/
lemma scanRunBlocks_found (ob s i : Nat) (xs ys : List Nat) (acc : Nat)
    (h : ob ∉ xs) :
    scanRunBlocks ob s i (xs ++ ob :: ys) acc =
      (some (acc + s * xs.length + i), acc + s * xs.length) := by
  induction xs generalizing acc with
  | nil => simp [scanRunBlocks]
  | cons x xs2 ih =>
    simp only [List.mem_cons, not_or] at h
    simp only [List.cons_append, scanRunBlocks, List.length_cons]
    rw [if_neg (fun hx => h.1 (hx.symm))]
    show scanRunBlocks ob s i (xs2 ++ ob :: ys) (acc + s) = _
    rw [ih (acc + s) h.2]
    have h1 : acc + s + s * xs2.length + i = acc + s * (xs2.length + 1) + i := by
      ring
    have h2 : acc + s + s * xs2.length = acc + s * (xs2.length + 1) := by ring
    rw [h1, h2]

/-- The NTFS branch of `_get_filenames_from_offset`: when the matched
volume is NTFS and the block query returned the single raw inode 0, the
returned filenames are those of the inode computed by
`_get_ntfs_resident_inode` with the record size decoded from boot-sector
byte 0x40. -/
lemma resolve_ntfs_raw_zero (img : ImageModel) (db : FsDb) (offset : Nat)
    (loc : String) (start : Nat)
    (hm : matchVolume img.extents offset = some (loc, start))
    (hn : (img.fs start).isNtfs = true)
    (hi : getInodes db ((offset - start) / (img.fs start).blockSize) loc
        = [0]) :
    (getFilenamesFromOffset img db offset).filenames =
      [displayString
        (getFilenamesFromInode db
          (getNtfsResidentInode (img.fs start).mftAttrs (offset - start)
            (img.fs start).blockSize
            (decodeMftRecordSize (img.fs start).byte0x40
              (img.fs start).blockSize)) loc)
        (getNtfsResidentInode (img.fs start).mftAttrs (offset - start)
          (img.fs start).blockSize
          (decodeMftRecordSize (img.fs start).byte0x40
            (img.fs start).blockSize))] := by
  simp only [getFilenamesFromOffset, hm]
  simp [hi, hn]

/-- The final `return 0` of `_get_ntfs_resident_inode`: when the offset's
block is in none of the $MFT data runs the function yields 0. -/
lemma getNtfsResidentInode_not_found (attrs : List Attr)
    (offset bs mrs : Nat) (h : offset / bs ∉ attrBlockAddrs attrs) :
    getNtfsResidentInode attrs offset bs mrs = 0 := by
  simp only [getNtfsResidentInode, scanAttrs_eq_flat]
  rw [scanRunBlocks_not_mem _ _ _ _ _ h]

/-- An NTFS single-volume example image: block size 4096, boot-sector byte
0x40 equal to 246 (signed -10, record size 2^10 = 1024), $MFT data run at
blocks 100-101. -/
def ntfsImage : ImageModel :=
  ⟨[("/p1", ⟨0, 8388608⟩)], fun _ => ⟨4096, true, 246, [⟨[⟨100, 2⟩]⟩]⟩⟩

/-- Database for the NTFS resident-record example. -/
def ntfsDb : FsDb := ⟨[(101, 0, "/p1")], [(7, "small.txt", "/p1")]⟩

/-- Database for the NTFS resident-record miss example: block 9 maps to
raw inode 0 but lies in no $MFT run. -/
def ntfsMissDb : FsDb := ⟨[(9, 0, "/p1")], [(0, "$MFT", "/p1")]⟩

/-- C1: for an offset resolution where the block table returns raw inode 0
on an NTFS volume, the resolver computes the true inode by walking the
$MFT's (inode 0) data runs, accumulating blockSize / mftRecordSize inode
slots for each run block before the owning block and adding
floor((offsetInVolume - owningBlockStart) / mftRecordSize) once the owning
run block is found; mftRecordSize is read as a signed byte at offset 0x40
of the volume's boot sector, a negative value n meaning record size 2^|n|
and a non-negative value meaning n * blockSize. -/
theorem ntfs_resident_inode_correction :
    (∀ b bs : Nat, b < 128 → decodeMftRecordSize b bs = b * bs) ∧
    (∀ b bs : Nat, 128 ≤ b → b < 256 →
      decodeMftRecordSize b bs = 2 ^ (256 - b)) ∧
    (∀ (attrs : List Attr) (offset bs mrs : Nat) (xs ys : List Nat),
      attrBlockAddrs attrs = xs ++ offset / bs :: ys →
      offset / bs ∉ xs →
      getNtfsResidentInode attrs offset bs mrs =
        bs / mrs * xs.length + (offset - offset / bs * bs) / mrs) ∧
    (∀ (img : ImageModel) (db : FsDb) (offset : Nat) (loc : String)
        (start : Nat),
      matchVolume img.extents offset = some (loc, start) →
      (img.fs start).isNtfs = true →
      getInodes db ((offset - start) / (img.fs start).blockSize) loc = [0] →
      (getFilenamesFromOffset img db offset).filenames =
        [displayString
          (getFilenamesFromInode db
            (getNtfsResidentInode (img.fs start).mftAttrs (offset - start)
              (img.fs start).blockSize
              (decodeMftRecordSize (img.fs start).byte0x40
                (img.fs start).blockSize)) loc)
          (getNtfsResidentInode (img.fs start).mftAttrs (offset - start)
            (img.fs start).blockSize
            (decodeMftRecordSize (img.fs start).byte0x40
              (img.fs start).blockSize))]) := by
  refine ⟨?_, ?_, ?_, ?_⟩
  · intro b bs hb
    have hmod : b % 256 = b := Nat.mod_eq_of_lt (by omega)
    simp only [decodeMftRecordSize, signedByte, hmod, if_pos hb]
    rw [if_neg (by omega : ¬((b : Int) < 0))]
    rw [← Int.natCast_mul, Int.toNat_natCast]
  · intro b bs hb1 hb2
    have hmod : b % 256 = b := Nat.mod_eq_of_lt hb2
    have hlt : ¬(b < 128) := by omega
    simp only [decodeMftRecordSize, signedByte, hmod, if_neg hlt]
    rw [if_pos (by omega)]
    have htn : (-((b : Int) - 256)).toNat = 256 - b := by omega
    rw [htn]
  · intro attrs offset bs mrs xs ys hflat hmem
    simp only [getNtfsResidentInode, scanAttrs_eq_flat, hflat]
    rw [scanRunBlocks_found _ _ _ _ _ _ hmem]
    simp only [Nat.zero_add]
  · intro img db offset loc start hm hn hi
    exact resolve_ntfs_raw_zero img db offset loc start hm hn hi

/-- Witness for C1 at the spec's numbers: record size 1024 (boot byte 246,
i.e. signed -10), block size 4096, $MFT run at blocks 100-101, offset
416773 = 101*4096 + 3*1024 + 5 inside the second run block: one prior run
block gives 4 slots, plus intra-block slot 3, so inode 7. -/
theorem ntfs_resident_inode_correction_witness :
    decodeMftRecordSize 2 512 = 1024 ∧
    decodeMftRecordSize 246 4096 = 1024 ∧
    getNtfsResidentInode [⟨[⟨100, 2⟩]⟩] 416773 4096 1024 = 7 ∧
    (getFilenamesFromOffset ntfsImage ntfsDb 416773).filenames =
      ["small.txt (7)"] :=
  ⟨(ntfs_resident_inode_correction.1 2 512 (by decide)).trans (by decide),
   (ntfs_resident_inode_correction.2.1 246 4096 (by decide)
     (by decide)).trans (by decide),
   (ntfs_resident_inode_correction.2.2.1 [⟨[⟨100, 2⟩]⟩] 416773 4096 1024
     [100] [] (by decide) (by decide)).trans (by decide),
   (ntfs_resident_inode_correction.2.2.2 ntfsImage ntfsDb 416773 "/p1" 0
     (by decide) rfl (by decide)).trans (by decide)⟩

/-- C10: when the NTFS resident-record correction is triggered (raw inode
0) but the offset's block is in none of the data runs of $MFT inode 0,
`_get_ntfs_resident_inode` returns 0 — the very sentinel that triggered
it — rather than signalling an error, and the caller then looks up
filenames for inode 0 as if it were a real inode. -/
theorem ntfs_resident_miss_returns_sentinel :
    (∀ (attrs : List Attr) (offset bs mrs : Nat),
      offset / bs ∉ attrBlockAddrs attrs →
      getNtfsResidentInode attrs offset bs mrs = 0) ∧
    (∀ (img : ImageModel) (db : FsDb) (offset : Nat) (loc : String)
        (start : Nat),
      matchVolume img.extents offset = some (loc, start) →
      (img.fs start).isNtfs = true →
      getInodes db ((offset - start) / (img.fs start).blockSize) loc = [0] →
      (offset - start) / (img.fs start).blockSize ∉
        attrBlockAddrs (img.fs start).mftAttrs →
      (getFilenamesFromOffset img db offset).filenames =
        [displayString (getFilenamesFromInode db 0 loc) 0]) := by
  refine ⟨getNtfsResidentInode_not_found, ?_⟩
  intro img db offset loc start hm hn hi hmiss
  rw [resolve_ntfs_raw_zero img db offset loc start hm hn hi,
    getNtfsResidentInode_not_found _ _ _ _ hmiss]

/-- Witness for C10: offset 36869 (block 9) maps to raw inode 0, block 9
is outside the $MFT run at blocks 100-101, and the resolver reports the
filenames recorded for inode 0 itself. -/
theorem ntfs_resident_miss_returns_sentinel_witness :
    getNtfsResidentInode [⟨[⟨100, 2⟩]⟩] 36869 4096 1024 = 0 ∧
    (getFilenamesFromOffset ntfsImage ntfsMissDb 36869).filenames =
      ["$MFT (0)"] :=
  ⟨ntfs_resident_miss_returns_sentinel.1 [⟨[⟨100, 2⟩]⟩] 36869 4096 1024
     (by decide),
   (ntfs_resident_miss_returns_sentinel.2 ntfsImage ntfsMissDb 36869 "/p1" 0
     (by decide) rfl (by decide) (by decide)).trans (by decide)⟩

/-- When every extent is bounded (`stop ≠ 0`) and none contains the
offset, the matching loop keeps whatever accumulator it started with. -/
lemma foldl_volumeStep_keeps (extents : List (String × Extent))
    (offset : Nat)
    (h : ∀ le ∈ extents, le.2.stop ≠ 0 ∧
      ¬(le.2.start ≤ offset ∧ offset < le.2.stop)) :
    ∀ acc, extents.foldl (volumeStep offset) acc = acc := by
  induction extents with
  | nil => intro acc; rfl
  | cons le rest ih =>
    intro acc
    have hle := h le (List.mem_cons_self le rest)
    have hstep : volumeStep offset acc le = acc := by
      simp only [volumeStep, if_neg hle.1, if_neg hle.2]
    simp only [List.foldl_cons, hstep]
    exact ih (fun x hx => h x (List.mem_cons_of_mem le hx)) acc

/-- No bounded extent containing the offset means no volume match. -/
lemma matchVolume_none (extents : List (String × Extent)) (offset : Nat)
    (h : ∀ le ∈ extents, le.2.stop ≠ 0 ∧
      ¬(le.2.start ≤ offset ∧ offset < le.2.stop)) :
    matchVolume extents offset = none :=
  foldl_volumeStep_keeps extents offset h none

/-- C3: a miss at any stage of offset resolution is a normal empty result,
never an exception.  An offset inside an unallocated partition lies in no
enumerated volume extent (`get_volume_extents` only records volumes for
which a filesystem base path spec exists), so `partition_offset` stays
`None` and the resolver short-circuits: it returns no filenames and issues
no block query against that region.  An offset whose block has no row in
the `blocks` table yields the empty list. -/
theorem resolution_misses_are_empty :
    (∀ (img : ImageModel) (db : FsDb) (offset : Nat),
      (∀ le ∈ img.extents, le.2.stop ≠ 0 ∧
        ¬(le.2.start ≤ offset ∧ offset < le.2.stop)) →
      getFilenamesFromOffset img db offset = ⟨[], []⟩) ∧
    (∀ (img : ImageModel) (db : FsDb) (offset : Nat) (loc : String)
        (start : Nat),
      matchVolume img.extents offset = some (loc, start) →
      getInodes db ((offset - start) / (img.fs start).blockSize) loc = [] →
      (getFilenamesFromOffset img db offset).filenames = []) := by
  constructor
  · intro img db offset h
    simp only [getFilenamesFromOffset, matchVolume_none img.extents offset h]
  · intro img db offset loc start hm hi
    simp only [getFilenamesFromOffset, hm]
    simp [hi]

/-- Image with one allocated partition `/p1` covering bytes
[512, 4096); bytes from 4096 up model an unallocated partition, absent
from the extents map. -/
def partlyAllocatedImage : ImageModel :=
  ⟨[("/p1", ⟨512, 4096⟩)], fun _ => ⟨512, false, 0, []⟩⟩

/-- Witness for C3: offset 8000 inside the unallocated region resolves to
no filenames with no block query issued, and offset 600 inside /p1 with an
empty blocks table resolves to the empty list. -/
theorem resolution_misses_are_empty_witness :
    getFilenamesFromOffset partlyAllocatedImage ⟨[], []⟩ 8000 = ⟨[], []⟩ ∧
    (getFilenamesFromOffset partlyAllocatedImage ⟨[], []⟩ 600).filenames
      = [] :=
  ⟨resolution_misses_are_empty.1 partlyAllocatedImage ⟨[], []⟩ 8000
     (by decide),
   resolution_misses_are_empty.2 partlyAllocatedImage ⟨[], []⟩ 600 "/p1" 512
     (by decide) (by decide)⟩

/-- Image of the C8 example: partition `/p1` starting at byte 1048576,
block size 512. -/
def exampleImage : ImageModel :=
  ⟨[("/p1", ⟨1048576, 2097152⟩)], fun _ => ⟨512, false, 0, []⟩⟩

/-- Seeded rows of the C8 example: block row (349, 67, "/p1") and file row
(67, "NOTES.TXT", "/p1"). -/
def exampleDb : FsDb := ⟨[(349, 67, "/p1")], [(67, "NOTES.TXT", "/p1")]⟩

/-- C8 counterexample: at offset 1048755 the computed block is
(1048755 - 1048576) / 512 = 179 / 512 = 0, not 349 as the claim's example
asserts, so the seeded rows yield no filenames instead of
["NOTES.TXT (67)"]. -/
theorem offset_conversion_example_counterexample :
    getFilenamesFromOffset exampleImage exampleDb 1048755 =
      ⟨[], [(0, "/p1")]⟩ := by
  decide

/-- C8 amended: resolving an offset inside a matched volume queries block
floor((offset - volumeStart) / blockSize) and returns display strings of
the form "filename (inode)"; with the example's seeded rows the offset
must be one whose block is 349 — e.g. 1227443 = 1048576 + 349*512 + 179 —
to yield exactly ["NOTES.TXT (67)"], while offset 1048755 falls in block
0. -/
theorem offset_conversion_and_display :
    (∀ (img : ImageModel) (db : FsDb) (offset : Nat) (loc : String)
        (start : Nat),
      matchVolume img.extents offset = some (loc, start) →
      (getFilenamesFromOffset img db offset).blockQueries =
        [((offset - start) / (img.fs start).blockSize, loc)]) ∧
    getFilenamesFromOffset exampleImage exampleDb 1227443 =
      ⟨["NOTES.TXT (67)"], [(349, "/p1")]⟩ := by
  constructor
  · intro img db offset loc start hm
    simp [getFilenamesFromOffset, hm]
  · decide

/-- Witness for C8 (amended): the general block-conversion conjunct applied
at the example volume and offset 1227443. -/
theorem offset_conversion_and_display_witness :
    (getFilenamesFromOffset exampleImage exampleDb 1227443).blockQueries =
      [(349, "/p1")] :=
  (offset_conversion_and_display.1 exampleImage exampleDb 1227443 "/p1"
    1048576 (by decide)).trans (by decide)

/-- A one-row batch is a single conflict-ignoring insert. -/
lemma bulkInsertRows_single {α : Type} [BEq α] (t : List α) (r : α) :
    bulkInsertRows t [r] = insertIgnore t r := rfl

/-- A row whose key already exists is silently discarded. -/
lemma insertIgnore_mem {α : Type} [BEq α] [LawfulBEq α] (t : List α) (r : α)
    (h : r ∈ t) : insertIgnore t r = t := by
  simp only [insertIgnore, if_pos (List.elem_iff.2 h)]

/-- A row whose key is new is appended. -/
lemma insertIgnore_not_mem {α : Type} [BEq α] [LawfulBEq α] (t : List α)
    (r : α) (h : r ∉ t) : insertIgnore t r = t ++ [r] := by
  simp only [insertIgnore]
  rw [if_neg (fun hc => h (List.elem_iff.1 hc))]

/-- Inserting a fresh row twice across two batches leaves exactly one
copy. -/
lemma double_insert_count {α : Type} [BEq α] [LawfulBEq α] (t : List α)
    (r : α) (h : r ∉ t) :
    (bulkInsertRows (bulkInsertRows t [r]) [r]).count r = 1 := by
  rw [bulkInsertRows_single, bulkInsertRows_single, insertIgnore_not_mem t r h,
    insertIgnore_mem _ _ (by simp), List.count_append]
  simp [List.count_eq_zero.2 h]

/-- Inserting a fresh row twice inside one batch leaves exactly one
copy. -/
lemma double_insert_count_same_batch {α : Type} [BEq α] [LawfulBEq α]
    (t : List α) (r : α) (h : r ∉ t) :
    (bulkInsertRows t [r, r]).count r = 1 := by
  show ((insertIgnore (insertIgnore t r) r).count r) = 1
  rw [insertIgnore_not_mem t r h, insertIgnore_mem _ _ (by simp),
    List.count_append]
  simp [List.count_eq_zero.2 h]

/-- C4: every batch passed to `bulk_insert` is issued as a single
statement for the whole batch (psycopg2 `execute_values` interpolates the
batch into the one `INSERT ... VALUES %s ON CONFLICT DO NOTHING`
template), rows whose primary key — the full `(block, inum, part)` or
`(inum, filename, part)` tuple — already exists are silently discarded,
and inserting the same triple twice leaves exactly one row. -/
theorem bulk_insert_upsert_semantics :
    (∀ (tableSpec : String) (values : List String),
      (bulkInsertStatements tableSpec values).length = 1) ∧
    (∀ (t : List BlockRow) (r : BlockRow), r ∈ t →
      bulkInsertRows t [r] = t) ∧
    (∀ (t : List FileRow) (r : FileRow), r ∈ t →
      bulkInsertRows t [r] = t) ∧
    (∀ (t : List BlockRow) (r : BlockRow), r ∉ t →
      (bulkInsertRows (bulkInsertRows t [r]) [r]).count r = 1) ∧
    (∀ (t : List FileRow) (r : FileRow), r ∉ t →
      (bulkInsertRows (bulkInsertRows t [r]) [r]).count r = 1) ∧
    (∀ (t : List BlockRow) (r : BlockRow), r ∉ t →
      (bulkInsertRows t [r, r]).count r = 1) :=
  ⟨fun _ _ => rfl,
   fun t r h => by rw [bulkInsertRows_single, insertIgnore_mem t r h],
   fun t r h => by rw [bulkInsertRows_single, insertIgnore_mem t r h],
   fun t r h => double_insert_count t r h,
   fun t r h => double_insert_count t r h,
   fun t r h => double_insert_count_same_batch t r h⟩

/-- Witness for C4 at the spec's example triple (349, 67, "/p1") and a
file row (67, "NOTES.TXT", "/p1"). -/
theorem bulk_insert_upsert_semantics_witness :
    (bulkInsertStatements "blocks (block, inum, part)"
      ["(349, 67, /p1)"]).length = 1 ∧
    bulkInsertRows [(349, 67, "/p1")] [(349, 67, "/p1")] =
      [(349, 67, "/p1")] ∧
    bulkInsertRows [(67, "NOTES.TXT", "/p1")] [(67, "NOTES.TXT", "/p1")] =
      [(67, "NOTES.TXT", "/p1")] ∧
    (bulkInsertRows (bulkInsertRows ([] : List BlockRow) [(349, 67, "/p1")])
      [(349, 67, "/p1")]).count (349, 67, "/p1") = 1 ∧
    (bulkInsertRows (bulkInsertRows ([] : List FileRow)
      [(67, "NOTES.TXT", "/p1")])
      [(67, "NOTES.TXT", "/p1")]).count (67, "NOTES.TXT", "/p1") = 1 ∧
    (bulkInsertRows ([] : List BlockRow)
      [(349, 67, "/p1"), (349, 67, "/p1")]).count (349, 67, "/p1") = 1 :=
  ⟨bulk_insert_upsert_semantics.1 "blocks (block, inum, part)"
     ["(349, 67, /p1)"],
   bulk_insert_upsert_semantics.2.1 [(349, 67, "/p1")] (349, 67, "/p1")
     (by decide),
   bulk_insert_upsert_semantics.2.2.1 [(67, "NOTES.TXT", "/p1")]
     (67, "NOTES.TXT", "/p1") (by decide),
   bulk_insert_upsert_semantics.2.2.2.1 [] (349, 67, "/p1") (by decide),
   bulk_insert_upsert_semantics.2.2.2.2.1 [] (67, "NOTES.TXT", "/p1")
     (by decide),
   bulk_insert_upsert_semantics.2.2.2.2.2 [] (349, 67, "/p1") (by decide)⟩

/-- One push keeps the content: flushed batches followed by the pending
buffer equal the previous content plus the pushed row. -/
lemma pushRow_flatten (st : List (List BlockRow) × List BlockRow)
    (r : BlockRow) :
    (pushRow st r).1.flatten ++ (pushRow st r).2 =
      st.1.flatten ++ st.2 ++ [r] := by
  unfold pushRow
  by_cases hc : BATCH_SIZE ≤ st.2.length + 1
  · simp [hc]
  · simp [hc, List.append_assoc]

/-- The flush discipline loses no rows: after folding `pushRow`, the
flushed batches followed by the pending buffer are the starting content
plus every pushed row, in order. -/
lemma foldl_pushRow_flatten (rows : List BlockRow)
    (st : List (List BlockRow) × List BlockRow) :
    (rows.foldl pushRow st).1.flatten ++ (rows.foldl pushRow st).2 =
      st.1.flatten ++ st.2 ++ rows := by
  induction rows generalizing st with
  | nil => simp
  | cons r rest ih =>
    rw [List.foldl_cons, ih, pushRow_flatten]
    simp [List.append_assoc]

/-- The flush discipline flushes exactly-full batches and keeps the
pending buffer strictly below `BATCH_SIZE`. -/
lemma foldl_pushRow_sizes (rows : List BlockRow)
    (st : List (List BlockRow) × List BlockRow)
    (h1 : ∀ b ∈ st.1, b.length = BATCH_SIZE)
    (h2 : st.2.length < BATCH_SIZE) :
    (∀ b ∈ (rows.foldl pushRow st).1, b.length = BATCH_SIZE) ∧
      (rows.foldl pushRow st).2.length < BATCH_SIZE := by
  induction rows generalizing st with
  | nil => exact ⟨h1, h2⟩
  | cons r rest ih =>
    rw [List.foldl_cons]
    apply ih
    · intro b hb
      unfold pushRow at hb
      by_cases hc : BATCH_SIZE ≤ (st.2 ++ [r]).length
      · simp only [if_pos hc] at hb
        rcases List.mem_append.1 hb with hmem | hmem
        · exact h1 b hmem
        · have hb2 : b = st.2 ++ [r] := List.mem_singleton.1 hmem
          subst hb2
          simp only [List.length_append, List.length_singleton]
          simp only [List.length_append, List.length_singleton] at hc
          omega
      · simp only [if_neg hc] at hb
        exact h1 b hb
    · unfold pushRow
      by_cases hc : BATCH_SIZE ≤ (st.2 ++ [r]).length
      · simp only [if_pos hc, List.length_nil]
        decide
      · simp only [if_neg hc]
        omega

/-- C5: every inode with link count > 0 contributes one (block, inode,
location) row per block of each of its data runs, inodes are visited in
filesystem inode order (this is the content of `volumeRows`, the emission
sequence of `_parse_inodes`); the rows reach `bulk_insert` in fixed-size
batches of `BATCH_SIZE` = 1500 (between 1,000 and 2,000), with one final
partial flush, and the concatenation of all flushed batches is exactly
the emission sequence — no emitted row is lost. -/
theorem block_mapper_batching :
    BATCH_SIZE = 1500 ∧ 1000 ≤ BATCH_SIZE ∧ BATCH_SIZE ≤ 2000 ∧
    (∀ (loc : String) (inodes : List (Nat × Option InodeMeta)),
      (parseInodesBatches loc inodes).flatten = volumeRows loc inodes) ∧
    (∀ (loc : String) (inodes : List (Nat × Option InodeMeta)),
      ((parseInodesBatches loc inodes).dropLast.all
        (fun b => b.length == BATCH_SIZE)) = true) ∧
    (∀ (loc : String) (inodes : List (Nat × Option InodeMeta)),
      ((parseInodesBatches loc inodes).all
        (fun b => decide (b.length ≤ BATCH_SIZE))) = true) := by
  have hflat := fun (loc : String) inodes =>
    foldl_pushRow_flatten (volumeRows loc inodes) ([], [])
  have hsz := fun (loc : String) inodes =>
    foldl_pushRow_sizes (volumeRows loc inodes) ([], [])
      (by intro b hb; cases hb) (by decide)
  refine ⟨rfl, by decide, by decide, ?_, ?_, ?_⟩
  · intro loc inodes
    have h := hflat loc inodes
    simp only [List.flatten_nil, List.nil_append] at h
    unfold parseInodesBatches
    by_cases he : ((volumeRows loc inodes).foldl pushRow ([], [])).2.isEmpty
    · simp only [if_pos he]
      rw [List.isEmpty_iff] at he
      rw [he, List.append_nil] at h
      exact h
    · simp only [if_neg he]
      rw [List.flatten_append, List.flatten_cons, List.flatten_nil,
        List.append_nil]
      exact h
  · intro loc inodes
    have h := hsz loc inodes
    rw [List.all_eq_true]
    intro b hb
    rw [beq_iff_eq]
    unfold parseInodesBatches at hb
    by_cases he : ((volumeRows loc inodes).foldl pushRow ([], [])).2.isEmpty
    · simp only [if_pos he] at hb
      exact h.1 b ((List.dropLast_sublist _).subset hb)
    · simp only [if_neg he, List.dropLast_concat] at hb
      exact h.1 b hb
  · intro loc inodes
    have h := hsz loc inodes
    rw [List.all_eq_true]
    intro b hb
    rw [decide_eq_true_iff]
    unfold parseInodesBatches at hb
    by_cases he : ((volumeRows loc inodes).foldl pushRow ([], [])).2.isEmpty
    · simp only [if_pos he] at hb
      exact le_of_eq (h.1 b hb)
    · simp only [if_neg he] at hb
      rcases List.mem_append.1 hb with hmem | hmem
      · exact le_of_eq (h.1 b hmem)
      · have hb2 := List.mem_singleton.1 hmem
        subst hb2
        exact le_of_lt h.2

/-- After `_already_parsed`, whatever the starting state: the tracking
tables exist, the image row is present, and the image is linked to the
case. -/
lemma alreadyParsed_post (s : Store) (c id p h : String) :
    (alreadyParsed s c id p h).2.imagesTable = true ∧
    valueExistsImages (alreadyParsed s c id p h).2 id = true ∧
    isImageInCase (alreadyParsed s c id p h).2 id c = true := by
  unfold alreadyParsed valueExistsImages isImageInCase
  by_cases ht : s.imagesTable <;>
    by_cases hv : s.images.any (fun r => r.1 == id) <;>
      by_cases hic : s.imageCase.any (fun l => l.1 == c && l.2 == id) <;>
        simp [ht, hv, hic, List.any_append]

/-- When the tables exist, the image row is present and the case link is
present, `_already_parsed` reports `True` and changes nothing. -/
lemma alreadyParsed_stable (s : Store) (c id p h : String)
    (h1 : s.imagesTable = true) (h2 : valueExistsImages s id = true)
    (h3 : isImageInCase s id c = true) :
    alreadyParsed s c id p h = (true, s) := by
  unfold alreadyParsed
  simp [h1, h2, h3]

/-- Beyond what `_already_parsed` does to the tracking schema,
`_parse_filesystems` changes only the per-image databases. -/
lemma parseFilesystems_fields (s : Store) (c : String) (img : ImageInput)
    (rep : Bool) :
    ((parseFilesystems s c img rep).1).imagesTable =
      (alreadyParsed s c img.imageId img.imagePath
        img.imageHash).2.imagesTable ∧
    ((parseFilesystems s c img rep).1).images =
      (alreadyParsed s c img.imageId img.imagePath img.imageHash).2.images ∧
    ((parseFilesystems s c img rep).1).imageCase =
      (alreadyParsed s c img.imageId img.imagePath
        img.imageHash).2.imageCase := by
  unfold parseFilesystems
  by_cases h0 :
      (alreadyParsed s c img.imageId img.imagePath img.imageHash).1 <;>
    by_cases hr : rep <;> simp [h0, hr]

/-- Second runs of `_parse_filesystems` are no-ops. -/
lemma parseFilesystems_idempotent (s0 : Store) (caseId : String)
    (img : ImageInput) :
    parseFilesystems (parseFilesystems s0 caseId img false).1 caseId img
      false = ((parseFilesystems s0 caseId img false).1, 0) := by
  have hf := parseFilesystems_fields s0 caseId img false
  have hp := alreadyParsed_post s0 caseId img.imageId img.imagePath
    img.imageHash
  have h1 : ((parseFilesystems s0 caseId img false).1).imagesTable = true :=
    hf.1.trans hp.1
  have h2 : valueExistsImages (parseFilesystems s0 caseId img false).1
      img.imageId = true := by
    unfold valueExistsImages at hp ⊢
    rw [hf.2.1]
    exact hp.2.1
  have h3 : isImageInCase (parseFilesystems s0 caseId img false).1
      img.imageId caseId = true := by
    unfold isImageInCase at hp ⊢
    rw [hf.2.2]
    exact hp.2.2
  have hstable := alreadyParsed_stable
    (parseFilesystems s0 caseId img false).1 caseId img.imageId
    img.imagePath img.imageHash h1 h2 h3
  conv_lhs => rw [parseFilesystems]
  rw [hstable]
  simp

/-- A state in which the image row exists in the `images` table but the
per-image block database `fsh1` does not — the state a crash between
`insert_image` and `create_database` leaves behind. -/
def imageRowOnlyStore : Store :=
  ⟨true, [("img1", "/evidence/a.dd", "h1")], [], [], []⟩

/-- Volume contents used in the C2 examples. -/
def exampleInput : ImageInput :=
  ⟨"img1", "/evidence/a.dd", "h1",
    [⟨"/p1", true, [(0, 2, "/p1")], [(2, "a.txt", "/p1")]⟩]⟩

/-- C2 counterexample: `_already_parsed` reports the image as parsed by
reading the stored `images` row, although the per-image block database
does not exist; a subsequent run therefore performs zero block/file
inserts and still leaves the database missing.  The parsed state is read
from a stored table, not derived from the existence of the per-image
block database. -/
theorem parsed_state_counterexample :
    (alreadyParsed imageRowOnlyStore "case1" "img1" "/evidence/a.dd"
      "h1").1 = true ∧
    fsDbExists imageRowOnlyStore "fsh1" = false ∧
    (parseFilesystems imageRowOnlyStore "case1" exampleInput false).2 = 0 ∧
    fsDbExists (parseFilesystems imageRowOnlyStore "case1" exampleInput
      false).1 "fsh1" = false := by
  decide

/-- C2 amended: the parsed state is derived from the presence of the
image's row in the `images` table — a stored record, not the existence of
the per-image block database — and processing the same image a second time
under the same case and image arguments without the force-reparse flag
performs zero additional block or file row inserts and leaves the
datastore unchanged. -/
theorem parsed_state_and_idempotence :
    (∀ (s : Store) (caseId imageId imagePath imageHash : String),
      s.imagesTable = true →
      (alreadyParsed s caseId imageId imagePath imageHash).1 =
        valueExistsImages s imageId) ∧
    (∀ (s0 : Store) (caseId : String) (img : ImageInput),
      parseFilesystems (parseFilesystems s0 caseId img false).1 caseId img
        false = ((parseFilesystems s0 caseId img false).1, 0)) := by
  constructor
  · intro s caseId imageId imagePath imageHash h
    unfold alreadyParsed
    simp [h]
  · exact parseFilesystems_idempotent

/-- Witness for C2 (amended): the parsed check at the crash-residue state
equals the stored-row check, and a clean first-then-second run of the
example image inserts nothing the second time. -/
theorem parsed_state_and_idempotence_witness :
    (alreadyParsed imageRowOnlyStore "case1" "img1" "/evidence/a.dd"
      "h1").1 = valueExistsImages imageRowOnlyStore "img1" ∧
    parseFilesystems
      (parseFilesystems ⟨false, [], [], [], []⟩ "case1" exampleInput
        false).1 "case1" exampleInput false =
      ((parseFilesystems ⟨false, [], [], [], []⟩ "case1" exampleInput
        false).1, 0) :=
  ⟨parsed_state_and_idempotence.1 imageRowOnlyStore "case1" "img1"
     "/evidence/a.dd" "h1" (by decide),
   parsed_state_and_idempotence.2 ⟨false, [], [], [], []⟩ "case1"
     exampleInput⟩

/-- Whether the OpenSearch index `name` exists (the
`OpenSearchDataStore.index_exists` check). -/
def indexExists (s : Store) (name : String) : Bool :=
  s.indexes.any (fun i => i == name)

/-- Filtering out exactly the rows a predicate selects leaves a list in
which the predicate matches nothing. -/
lemma any_filter_not {α : Type} (l : List α) (p : α → Bool) :
    (l.filter (fun x => !(p x))).any p = false := by
  induction l with
  | nil => rfl
  | cons x xs ih =>
    by_cases hp : p x <;> simp [List.filter_cons, hp, ih]

/-- C6: deleting an image from a case first removes only the case-image
link; the per-image filesystem database, the search index and the image
row are dropped only when no other case still references the image, and
when other cases do reference it the operation leaves all of that data
unchanged and reports the still-referencing cases. -/
theorem delete_image_reference_counting :
    ∀ (s : Store) (caseId imageId imageHash : String),
      isImageInCase s imageId caseId = true →
      ((getImageCases (unlinkImageFromCase s imageId caseId) imageId ≠ [] →
        deleteImageData s caseId imageId imageHash =
          (unlinkImageFromCase s imageId caseId,
            DeleteOutcome.stillReferenced
              (getImageCases (unlinkImageFromCase s imageId caseId)
                imageId)) ∧
        (unlinkImageFromCase s imageId caseId).images = s.images ∧
        (unlinkImageFromCase s imageId caseId).fsDbs = s.fsDbs ∧
        (unlinkImageFromCase s imageId caseId).indexes = s.indexes) ∧
      (getImageCases (unlinkImageFromCase s imageId caseId) imageId = [] →
        (deleteImageData s caseId imageId imageHash).2 =
          DeleteOutcome.deleted ∧
        fsDbExists (deleteImageData s caseId imageId imageHash).1
          ("fs" ++ imageHash) = false ∧
        indexExists (deleteImageData s caseId imageId imageHash).1
          ("es" ++ imageHash) = false ∧
        valueExistsImages (deleteImageData s caseId imageId imageHash).1
          imageId = false)) := by
  intro s caseId imageId imageHash hin
  constructor
  · intro hcases
    have hne : (getImageCases (unlinkImageFromCase s imageId caseId)
        imageId).isEmpty = false := by
      rcases hl : getImageCases (unlinkImageFromCase s imageId caseId)
        imageId with _ | ⟨c, cs⟩
      · exact absurd hl hcases
      · rfl
    refine ⟨?_, rfl, rfl, rfl⟩
    unfold deleteImageData
    simp [hin, hne]
  · intro hcases
    have he : (getImageCases (unlinkImageFromCase s imageId caseId)
        imageId).isEmpty = true := by
      rw [hcases]; rfl
    refine ⟨?_, ?_, ?_, ?_⟩
    · unfold deleteImageData
      simp [hin, he]
    · unfold deleteImageData fsDbExists
      simp [hin, he, any_filter_not]
    · unfold deleteImageData indexExists
      simp [hin, he, any_filter_not]
    · unfold deleteImageData valueExistsImages
      simp [hin, he, any_filter_not]

/-- A store in which image img1 is linked to two cases. -/
def twoCaseStore : Store :=
  ⟨true, [("img1", "/a.dd", "h1")], [("case1", "img1"), ("case2", "img1")],
    [("fsh1", ⟨[], []⟩)], ["esh1"]⟩

/-- A store in which image img1 is linked only to case1. -/
def oneCaseStore : Store :=
  ⟨true, [("img1", "/a.dd", "h1")], [("case1", "img1")],
    [("fsh1", ⟨[], []⟩)], ["esh1"]⟩

/-- Witness for C6: with a second case still referencing img1, the delete
removes only the case link and reports case2, leaving database, index and
image row intact; with a single case, the delete drops everything. -/
theorem delete_image_reference_counting_witness :
    deleteImageData twoCaseStore "case1" "img1" "h1" =
      (⟨true, [("img1", "/a.dd", "h1")], [("case2", "img1")],
        [("fsh1", ⟨[], []⟩)], ["esh1"]⟩,
       DeleteOutcome.stillReferenced ["case2"]) ∧
    (deleteImageData oneCaseStore "case1" "img1" "h1").2 =
      DeleteOutcome.deleted ∧
    fsDbExists (deleteImageData oneCaseStore "case1" "img1" "h1").1
      ("fs" ++ "h1") = false ∧
    indexExists (deleteImageData oneCaseStore "case1" "img1" "h1").1
      ("es" ++ "h1") = false ∧
    valueExistsImages (deleteImageData oneCaseStore "case1" "img1" "h1").1
      "img1" = false :=
  ⟨((delete_image_reference_counting twoCaseStore "case1" "img1" "h1"
      (by decide)).1 (by decide)).1.trans (by decide),
   ((delete_image_reference_counting oneCaseStore "case1" "img1" "h1"
      (by decide)).2 (by decide)).1,
   ((delete_image_reference_counting oneCaseStore "case1" "img1" "h1"
      (by decide)).2 (by decide)).2.1,
   ((delete_image_reference_counting oneCaseStore "case1" "img1" "h1"
      (by decide)).2 (by decide)).2.2.1,
   ((delete_image_reference_counting oneCaseStore "case1" "img1" "h1"
      (by decide)).2 (by decide)).2.2.2⟩

/-- On the two-directory cycle the walk exhausts any recursion depth from
either node: `_list_file_entry` has no cycle detection to stop it. -/
lemma cycle_walk_stuck : ∀ fuel : Nat,
    listFileEntryWalk cycleChildren fuel 0 = none ∧
    listFileEntryWalk cycleChildren fuel 1 = none := by
  intro fuel
  induction fuel with
  | zero => exact ⟨rfl, rfl⟩
  | succ f ih =>
    have h0 : List.mapM.loop (listFileEntryWalk cycleChildren f) [1] []
        = none := by
      simp [List.mapM.loop, ih.2]
    have h1 : List.mapM.loop (listFileEntryWalk cycleChildren f) [0] []
        = none := by
      simp [List.mapM.loop, ih.1]
    constructor
    · simp [listFileEntryWalk, cycleChildren, List.mapM, h0]
    · simp [listFileEntryWalk, cycleChildren, List.mapM, h1]

/-- C7 counterexample: in a structure where directory inode 1 is reachable
twice from the root, the walk enters inode 1 twice — there is no stack of
visited inodes and no skipping of already-visited directories in
`_list_file_entry`. -/
theorem directory_walk_counterexample :
    listFileEntryWalk revisitChildren 3 0 = some [0, 1, 1] := by
  decide

/-- C7 amended: the directory traversal is a depth-first recursive walk
from the volume root that keeps no record of visited inodes and performs
no cycle detection: an already-visited directory is entered again, and on
a directory structure containing a cycle the recursion exceeds every
depth bound — the walk does not terminate. -/
theorem directory_walk_no_cycle_detection :
    (∀ fuel : Nat, listFileEntryWalk cycleChildren fuel 0 = none) ∧
    listFileEntryWalk revisitChildren 3 0 = some [0, 1, 1] :=
  ⟨fun fuel => (cycle_walk_stuck fuel).1, by decide⟩

/-- C9: evaluation of the SQL text builders at values containing a single
quote.  The relational-store layer interpolates filenames and identifier
values verbatim with `str.format`; a value containing a quote therefore
yields a statement whose quote characters no longer form well-formed
literals — nothing is escaped.  A quote-free value yields well-formed
text, confirming the scanner measures the right thing, and the final
conjunct exhibits the built text verbatim. -/
theorem sql_text_unescaped_quotes :
    wellFormedSqlText (valueExistsSql "images" "image_id"
      ("O" ++ sq ++ "Brien")) = false ∧
    wellFormedSqlText (insertImageSql "img1"
      ("/evidence/O" ++ sq ++ "Brien.dd") "d41d8cd9") = false ∧
    wellFormedSqlText (getFilenamesFromInodeSql 67 ("/p1" ++ sq)) = false ∧
    wellFormedSqlText (valueExistsSql "images" "image_id" "OBrien")
      = true ∧
    valueExistsSql "images" "image_id" ("O" ++ sq ++ "Brien") =
      "\n        SELECT 1 from images\n        WHERE image_id = " ++ sq ++
        "O" ++ sq ++ "Brien" ++ sq := by
  refine ⟨by decide, by decide, by decide, by decide, by decide⟩

end DFDewey
